import Mathlib

/-!
# Operation execution bridge (`atb_adapter.cpp`)

A shallow embedding of `mindspeed/ops/csrc/atb/utils/atb_adapter.cpp`:

* `FormatTrans`, `AtTensor2Tensor` : conversion of a framework tensor into the
  operation library's tensor descriptor;
* `ParamSetter.Input`, `ParamSetter.Output` : accumulation of a variant pack;
* `GetContext` : the lazily created process-wide context `msContext`;
* `OperationSetup`, `GetWorkspaceTensor`, `RunAtbCmd` and the deferred
  handler `acl_call` that `RunAtbCmd` hands to the command queue.

Framework and library calls that the file consumes (`npu_format_cast`,
`contiguous`, `GetTensorSize`, `CreateContext`, `Setup`, `Execute`, ...) are
not part of the repository.  Their replies are parameters of the model; every
call that matters for ordering is recorded in an explicit event log.
-/

namespace AtbAdapter

/-! ## Framework and library enumerations -/

/-- Element types of the framework (`at::ScalarType`). -/
inductive ScalarType where
  | Byte | Char | Short | Int | Long | Half | Float | Double
  | ComplexHalf | ComplexFloat | ComplexDouble | Bool
  | QInt8 | QUInt8 | QInt32 | BFloat16 | Undefined
  deriving DecidableEq, Repr

/-- Element types of the operation library (`aclDataType`). -/
inductive aclDataType where
  | ACL_DT_UNDEFINED | ACL_FLOAT | ACL_FLOAT16 | ACL_INT8 | ACL_INT32
  | ACL_UINT8 | ACL_INT16 | ACL_UINT16 | ACL_UINT32 | ACL_INT64
  | ACL_UINT64 | ACL_DOUBLE | ACL_BOOL | ACL_BF16
  deriving DecidableEq, Repr

/-- Memory formats of the operation library (`aclFormat`). -/
inductive aclFormat where
  | ACL_FORMAT_UNDEFINED | ACL_FORMAT_NCHW | ACL_FORMAT_NHWC | ACL_FORMAT_ND
  | ACL_FORMAT_NC1HWC0 | ACL_FORMAT_FRACTAL_Z | ACL_FORMAT_FRACTAL_NZ
  deriving DecidableEq, Repr

/-- Failures that end a call.  The first six are the `TORCH_CHECK`s of the file,
named after what they report (`message` gives the text each check carries in
the source); `NegativeDimension` is raised by the framework allocator. -/
inductive Error where
  | DeviceResidencyError
  | NotContiguous
  | UnsupportedDtype
  | SetupFailed
  | ContextCreationFailed
  | StreamBindingFailed
  | NegativeDimension
  deriving DecidableEq, Repr

/-- Text carried by the failure. -/
def Error.message : Error → String
  | .DeviceResidencyError => "only npu tensor is supported"
  | .NotContiguous => "atTensor is not contiguous"
  | .UnsupportedDtype => "not support dtype:"
  | .SetupFailed => "setup failed!"
  | .ContextCreationFailed => "create context failed!"
  | .StreamBindingFailed => "get current stream failed"
  | .NegativeDimension => "Trying to create tensor with negative dimension"

/-! ## Tensors -/

/-- What the adapter observes of a framework tensor (`at::Tensor`). -/
structure AtTensor where
  defined : Bool
  is_npu : Bool
  is_contiguous : Bool
  sizes : List Int
  scalar_type : ScalarType
  data_ptr : Nat
  npu_format : aclFormat
  deriving DecidableEq, Repr

/-- Shape of a descriptor (`atb::Dims`): the fixed array `dims[MAX_DIM]` and
`dimNum`.  A cell is `none` until the adapter stores a value in it. -/
structure Dims where
  dims : List (Option Int)
  dimNum : Nat
  deriving DecidableEq, Repr

/-- Descriptor part of a library tensor (`atb::TensorDesc`). -/
structure TensorDesc where
  dtype : aclDataType
  format : aclFormat
  shape : Dims
  deriving DecidableEq, Repr

/-- Library tensor (`atb::Tensor`); pointers are addresses, `0` is `nullptr`. -/
structure Tensor where
  desc : TensorDesc
  deviceData : Nat
  hostData : Nat
  dataSize : Nat
  deriving DecidableEq, Repr

/-- Modelled from the spec: the designated empty descriptor, a
default-constructed `atb::Tensor` whose dimension array has `MAX_DIM` cells
(the library header is not among the sources): undefined type and format, null
pointers, zero sizes, no cell stored. -/
def Tensor.empty (MAX_DIM : Nat) : Tensor :=
  { desc := { dtype := .ACL_DT_UNDEFINED, format := .ACL_FORMAT_UNDEFINED,
              shape := { dims := List.replicate MAX_DIM none, dimNum := 0 } },
    deviceData := 0, hostData := 0, dataSize := 0 }

/-- The parts of the framework and of the operation library that the conversion
path calls: the capacity `MAX_DIM` of `atb::Dims::dims`, the byte-size utility
`atb::Utils::GetTensorSize`, the format cast and the contiguous copy. -/
structure Deps where
  MAX_DIM : Nat
  GetTensorSize : Tensor → Nat
  npu_format_cast : AtTensor → aclFormat → AtTensor
  contiguous : AtTensor → AtTensor

/-- Contract of the framework calls: a contiguous copy is contiguous, and both
the copy and the format cast keep the element type and the sizes. -/
structure Deps.Lawful (d : Deps) : Prop where
  contiguous_is_contiguous : ∀ t, (d.contiguous t).is_contiguous = true
  contiguous_scalar_type : ∀ t, (d.contiguous t).scalar_type = t.scalar_type
  contiguous_sizes : ∀ t, (d.contiguous t).sizes = t.sizes
  cast_scalar_type : ∀ t f, (d.npu_format_cast t f).scalar_type = t.scalar_type
  cast_sizes : ∀ t f, (d.npu_format_cast t f).sizes = t.sizes

/-! ## `AtTensor2Tensor` -/

/-- The static table `dtypeMap` of `AtTensor2Tensor`. -/
def dtypeMap : List (ScalarType × aclDataType) :=
  [ (.Bool, .ACL_BOOL), (.Byte, .ACL_UINT8),
    (.Char, .ACL_INT8), (.Half, .ACL_FLOAT16),
    (.Float, .ACL_FLOAT), (.Int, .ACL_INT32),
    (.Long, .ACL_INT64), (.BFloat16, .ACL_BF16) ]

/-- State of the dimension copy: the array, and the stores whose index lies at
or beyond its capacity (index and value, in program order). -/
structure DimStore where
  dims : List (Option Int)
  outOfBounds : List (Nat × Int)
  deriving DecidableEq, Repr

/-- The assignment `tensor.desc.shape.dims[i] = v` on an array of `MAX_DIM` cells. -/
def storeDim (MAX_DIM : Nat) (s : DimStore) (i : Nat) (v : Int) : DimStore :=
  if i < MAX_DIM then { s with dims := s.dims.set i (some v) }
  else { s with outOfBounds := s.outOfBounds ++ [(i, v)] }

/-- The loop `for (i = 0; i < sizes().size(); i++) dims[i] = sizes()[i]`, from
index `i` on, `rest` being the sizes not yet copied. -/
def copyDims (MAX_DIM : Nat) : Nat → List Int → DimStore → DimStore
  | _, [], s => s
  | i, v :: rest, s => copyDims MAX_DIM (i + 1) rest (storeDim MAX_DIM s i v)

/-- Outcome of a conversion: the returned tensor or the failed check, and the
stores made beyond the end of the dimension array. -/
structure Conversion where
  result : Except Error Tensor
  outOfBounds : List (Nat × Int)

/-- Source function `atb::Tensor AtTensor2Tensor(const at::Tensor atTensor)`:
the contiguity check, then format and device pointer, then `dimNum` and the
dimension copy, then the table lookup with its check, then the byte size. -/
def AtTensor2Tensor (d : Deps) (atTensor : AtTensor) : Conversion :=
  if atTensor.is_contiguous = false then
    { result := .error .NotContiguous, outOfBounds := [] }
  else
    let tensor := Tensor.empty d.MAX_DIM
    let tensor := { tensor with desc := { tensor.desc with format := .ACL_FORMAT_ND } }
    let tensor := { tensor with deviceData := atTensor.data_ptr }
    let s := copyDims d.MAX_DIM 0 atTensor.sizes
      { dims := tensor.desc.shape.dims, outOfBounds := [] }
    let tensor := { tensor with
      desc := { tensor.desc with
        shape := { dims := s.dims, dimNum := atTensor.sizes.length } } }
    match dtypeMap.lookup atTensor.scalar_type with
    | none => { result := .error .UnsupportedDtype, outOfBounds := s.outOfBounds }
    | some dtype =>
      let tensor := { tensor with desc := { tensor.desc with dtype := dtype } }
      let tensor := { tensor with dataSize := d.GetTensorSize tensor }
      { result := .ok tensor, outOfBounds := s.outOfBounds }

/-! ## `FormatTrans` and `ParamSetter` -/

/-- Framework calls and conversions made while a builder method runs. -/
inductive Call where
  | npu_format_cast (t : AtTensor) (format : aclFormat)
  | contiguous (t : AtTensor)
  | AtTensor2Tensor (t : AtTensor)
  deriving DecidableEq, Repr

/-- Source function `at::Tensor FormatTrans(const at::Tensor &at_tensor)`,
together with the framework calls it made. -/
def FormatTrans (d : Deps) (at_tensor : AtTensor) : Except Error AtTensor × List Call :=
  if at_tensor.defined then
    if at_tensor.is_npu = false then (.error .DeviceResidencyError, [])
    else (.ok (d.npu_format_cast at_tensor .ACL_FORMAT_ND),
          [.npu_format_cast at_tensor .ACL_FORMAT_ND])
  else (.ok at_tensor, [])

/-- The bundle `atb::VariantPack`. -/
structure VariantPack where
  inTensors : List Tensor
  outTensors : List Tensor
  deriving DecidableEq, Repr

/-- Modelled from the spec: the class declaration of `ParamSetter` (in
`../inc/atb_adapter.h`) is not among the sources.  The builder accumulates the
input and output descriptors of one invocation in its member `variantPack`. -/
structure ParamSetter where
  variantPack : VariantPack
  deriving DecidableEq, Repr

/-- Modelled from the spec: a newly constructed builder, whose variant pack has
no inputs and no outputs yet. -/
def ParamSetter.new : ParamSetter := { variantPack := { inTensors := [], outTensors := [] } }

/-- What a builder method leaves behind: whether it returned or which check
failed, the builder afterwards, the stores made beyond the dimension array,
and the calls made. -/
structure Outcome where
  result : Except Error Unit
  self : ParamSetter
  outOfBounds : List (Nat × Int)
  calls : List Call

/-- Source method `ParamSetter& ParamSetter::Input(const at::Tensor &tensor)`. -/
def ParamSetter.Input (d : Deps) (tensor : AtTensor) (self : ParamSetter) : Outcome :=
  if tensor.defined = false then
    { result := .ok (),
      self := { self with variantPack := { self.variantPack with
        inTensors := self.variantPack.inTensors ++ [Tensor.empty d.MAX_DIM] } },
      outOfBounds := [], calls := [] }
  else
    match FormatTrans d tensor with
    | (.error e, calls) => { result := .error e, self := self, outOfBounds := [], calls := calls }
    | (.ok newTensor, calls) =>
      let copied := newTensor.is_contiguous = false
      let calls := if copied then calls ++ [.contiguous newTensor] else calls
      let newTensor := if copied then d.contiguous newTensor else newTensor
      let conv := AtTensor2Tensor d newTensor
      let calls := calls ++ [.AtTensor2Tensor newTensor]
      match conv.result with
      | .error e =>
        { result := .error e, self := self, outOfBounds := conv.outOfBounds, calls := calls }
      | .ok AtTensor =>
        { result := .ok (),
          self := { self with variantPack := { self.variantPack with
            inTensors := self.variantPack.inTensors ++ [AtTensor] } },
          outOfBounds := conv.outOfBounds, calls := calls }

/-- Source method
`ParamSetter& ParamSetter::Input(const c10::optional<at::Tensor> &tensor)`. -/
def ParamSetter.InputOptional (d : Deps) (tensor : Option AtTensor) (self : ParamSetter) :
    Outcome :=
  match tensor with
  | none =>
    { result := .ok (),
      self := { self with variantPack := { self.variantPack with
        inTensors := self.variantPack.inTensors ++ [Tensor.empty d.MAX_DIM] } },
      outOfBounds := [], calls := [] }
  | some value => ParamSetter.Input d value self

/-- Source method `ParamSetter& ParamSetter::Output(at::Tensor &output)`. -/
def ParamSetter.Output (d : Deps) (output : AtTensor) (self : ParamSetter) : Outcome :=
  let conv := AtTensor2Tensor d output
  match conv.result with
  | .error e =>
    { result := .error e, self := self, outOfBounds := conv.outOfBounds,
      calls := [.AtTensor2Tensor output] }
  | .ok AtTensor =>
    { result := .ok (),
      self := { self with variantPack := { self.variantPack with
        outTensors := self.variantPack.outTensors ++ [AtTensor] } },
      outOfBounds := conv.outOfBounds, calls := [.AtTensor2Tensor output] }

/-- Argument of one `Input` call: the tensor overload or the optional overload. -/
inductive InputArg where
  | tensor (t : AtTensor)
  | optional (t : Option AtTensor)
  deriving DecidableEq, Repr

/-- One `Input` call, dispatched on the overload. -/
def ParamSetter.InputCall (d : Deps) (a : InputArg) (self : ParamSetter) : Outcome :=
  match a with
  | .tensor t => ParamSetter.Input d t self
  | .optional t => ParamSetter.InputOptional d t self

/-- A chain `setter.Input(a1).Input(a2)...`: the calls run in order and the
first failed check ends the chain. -/
def ParamSetter.InputChain (d : Deps) : List InputArg → ParamSetter → Except Error ParamSetter
  | [], self => .ok self
  | a :: rest, self =>
    let o := ParamSetter.InputCall d a self
    match o.result with
    | .error e => .error e
    | .ok _ => ParamSetter.InputChain d rest o.self

/-! ## The process-wide context -/

/-- The object behind an `atb::Context*`: its address and the stream bound to
it by `SetExecuteStream` (`none` while no stream has been bound). -/
structure Context where
  address : Nat
  executeStream : Option Nat
  deriving DecidableEq, Repr

/-- The lambda `acl_call` of `RunAtbCmd` with the values it captures by copy. -/
structure AclCall where
  op : Nat
  contextPtr : Nat
  paramsetter : ParamSetter
  workspacePtr : Nat
  workspaceSize : Nat
  deriving DecidableEq, Repr

/-- Calls into the operation library, the driver and the framework, in the
order in which the adapter makes them. -/
inductive Event where
  | CreateContext
  | aclrtGetDevice
  | getCurrentNPUStream (devId : Int)
  | SetExecuteStream (stream : Nat)
  | Setup (op : Nat) (variantPack : VariantPack) (contextPtr : Nat)
  | at_empty (size : Int)
  | Run (name : String) (handler : AclCall)
  | Execute (op : Nat) (variantPack : VariantPack) (workspacePtr : Nat)
      (workspaceSize : Nat) (contextPtr : Nat)
  | DestroyOperation (op : Nat)
  deriving DecidableEq, Repr

/-- The event is a request for workspace memory. -/
def Event.isAllocation : Event → Bool
  | .at_empty _ => true
  | _ => false

/-- The event is the hand-over of a handler to the command queue. -/
def Event.isEnqueue : Event → Bool
  | .Run _ _ => true
  | _ => false

/-- The event is a call of the operation's `Execute`. -/
def Event.isExecute : Event → Bool
  | .Execute _ _ _ _ _ => true
  | _ => false

/-- The event is the destruction of an operation. -/
def Event.isDestroy : Event → Bool
  | .DestroyOperation _ => true
  | _ => false

/-- The event is the creation of a context. -/
def Event.isCreateContext : Event → Bool
  | .CreateContext => true
  | _ => false

/-- Mutable state around the adapter: the static `msContext` (`none` is
`nullptr`), the handlers waiting in the framework's command queue, and the log
of external calls. -/
structure World where
  msContext : Option Context
  queue : List (String × AclCall)
  log : List Event
  deriving DecidableEq, Repr

/-- State at process start: `msContext` is `nullptr`, nothing queued or logged. -/
def World.initial : World := { msContext := none, queue := [], log := [] }

/-- What library, driver and framework answer during one `GetContext` call:
the status of `atb::CreateContext` and the address it stores in `msContext`
when it succeeds (a failed creation stores nothing), the device id written by
`aclrtGetDevice`, and the current stream (`none` is `nullptr`). -/
structure ContextReply where
  createStatus : Int
  createdAddress : Nat
  devId : Int
  stream : Option Nat
  deriving DecidableEq, Repr

/-- Source function `atb::Context* GetContext()`.  `CreateContext` writes
`msContext` before its status is checked, and the stream is bound only after
the null check on the stream handle. -/
def GetContext (r : ContextReply) (w : World) : Except Error Context × World :=
  match w.msContext with
  | some c => (.ok c, w)
  | none =>
    let w := { w with
      msContext := if r.createStatus = 0 then some ⟨r.createdAddress, none⟩ else none,
      log := w.log ++ [.CreateContext] }
    if r.createStatus ≠ 0 then (.error .ContextCreationFailed, w)
    else
      let w := { w with log := w.log ++ [.aclrtGetDevice, .getCurrentNPUStream r.devId] }
      match r.stream with
      | none => (.error .StreamBindingFailed, w)
      | some stream =>
        let c : Context := ⟨r.createdAddress, some stream⟩
        (.ok c, { w with msContext := some c, log := w.log ++ [.SetExecuteStream stream] })

/-! ## Dispatch -/

/-- What the operation answers to `Setup`: the status and the workspace size it
writes through the `uint64_t&` argument. -/
structure SetupReply where
  status : Int
  workspaceSize : Nat
  deriving DecidableEq, Repr

/-- Source function
`uint64_t OperationSetup(atb::VariantPack, atb::Operation*, atb::Context*)`. -/
def OperationSetup (variantPack : VariantPack) (operation : Nat) (contextPtr : Nat)
    (r : SetupReply) (w : World) : Except Error Nat × World :=
  let workspaceSize : Nat := r.workspaceSize % 2 ^ 64
  let w := { w with log := w.log ++ [.Setup operation variantPack contextPtr] }
  if r.status ≠ 0 then (.error .SetupFailed, w) else (.ok workspaceSize, w)

/-- Conversion of a `uint64_t` to `int64_t`, as in `at::IntArrayRef(workspaceSize)`
(an `ArrayRef<int64_t>` built from one element). -/
def toInt64 (n : Nat) : Int :=
  if n % 2 ^ 64 < 2 ^ 63 then ((n % 2 ^ 64 : Nat) : Int)
  else ((n % 2 ^ 64 : Nat) : Int) - 2 ^ 64

/-- The one-dimensional byte tensor that serves as workspace: its length and
the address `storage().data()`. -/
structure WorkspaceTensor where
  size : Int
  storage_data : Nat
  deriving DecidableEq, Repr

/-- Modelled from the spec: the framework allocation `at::empty(sizes, options)`
for a one-dimensional byte tensor is consumed, not part of the sources.  Every
length from zero on yields a buffer of that many bytes at the address the
allocator chooses; a negative dimension is no byte count and is rejected by
the framework.  Exhaustion of device memory is outside the model. -/
def at_empty (size : Int) (storage : Nat) : Except Error WorkspaceTensor :=
  if size < 0 then .error .NegativeDimension else .ok ⟨size, storage⟩

/-- Source function
`at::Tensor GetWorkspaceTensor(uint64_t workspaceSize, atb::Operation*)`. -/
def GetWorkspaceTensor (workspaceSize : Nat) (_operation : Nat) (storage : Nat) (w : World) :
    Except Error WorkspaceTensor × World :=
  let size := toInt64 workspaceSize
  (at_empty size storage, { w with log := w.log ++ [.at_empty size] })

/-- Body of the lambda `acl_call`: `Execute`, whose status is `st`, then
`DestroyOperation`, then `return 0`. -/
def acl_call (c : AclCall) (st : Int) (w : World) : Int × World :=
  let _st := st
  let w : World := { w with log := w.log ++
    [Event.Execute c.op c.paramsetter.variantPack c.workspacePtr c.workspaceSize c.contextPtr] }
  let w : World := { w with log := w.log ++ [Event.DestroyOperation c.op] }
  (0, w)

/-- Answers of the environment during one `RunAtbCmd` call. -/
structure DispatchReply where
  context : ContextReply
  setup : SetupReply
  storage : Nat
  deriving DecidableEq, Repr

/-- Source function
`void RunAtbCmd(atb::Operation *op, const ParamSetter&, const std::string&)`.
`cmd.Run()` hands the named handler to the framework's command queue, which
runs it later. -/
def RunAtbCmd (r : DispatchReply) (op : Nat) (paramsetter : ParamSetter) (name : String)
    (w : World) : Except Error Unit × World :=
  match GetContext r.context w with
  | (.error e, w) => (.error e, w)
  | (.ok contextPtr, w) =>
    match OperationSetup paramsetter.variantPack op contextPtr.address r.setup w with
    | (.error e, w) => (.error e, w)
    | (.ok workspaceSize, w) =>
      match GetWorkspaceTensor workspaceSize op r.storage w with
      | (.error e, w) => (.error e, w)
      | (.ok workspaceTensor, w) =>
        let workspacePtr := workspaceTensor.storage_data
        let handler : AclCall :=
          { op := op, contextPtr := contextPtr.address, paramsetter := paramsetter,
            workspacePtr := workspacePtr, workspaceSize := workspaceSize }
        (.ok (), { w with queue := w.queue ++ [(name, handler)],
                          log := w.log ++ [.Run name handler] })

/-! ## The builder contract in the words of the specification -/

/-- The tensor handed to the conversion, in the words of the builder contract:
the ND format cast of `t`, replaced by its contiguous copy exactly when the
cast result is not contiguous. -/
def castThenContiguous (d : Deps) (t : AtTensor) : AtTensor :=
  if (d.npu_format_cast t .ACL_FORMAT_ND).is_contiguous = false then
    d.contiguous (d.npu_format_cast t .ACL_FORMAT_ND)
  else d.npu_format_cast t .ACL_FORMAT_ND

/-! ## Concrete inputs -/

/-- Bytes per element of a library element type. -/
def elementSize : aclDataType → Nat
  | .ACL_BOOL | .ACL_INT8 | .ACL_UINT8 => 1
  | .ACL_FLOAT16 | .ACL_BF16 | .ACL_INT16 | .ACL_UINT16 => 2
  | .ACL_FLOAT | .ACL_INT32 | .ACL_UINT32 => 4
  | .ACL_INT64 | .ACL_UINT64 | .ACL_DOUBLE => 8
  | .ACL_DT_UNDEFINED => 0

/-- A concrete environment: a dimension array of 8 cells, the byte size as
element size times the stored dimensions, a format cast that only retags the
tensor, and a contiguous copy at a new address. -/
def sampleDeps : Deps :=
  { MAX_DIM := 8,
    GetTensorSize := fun t =>
      (t.desc.shape.dims.take t.desc.shape.dimNum).foldl
        (fun acc c => acc * (c.getD 0).toNat) (elementSize t.desc.dtype),
    npu_format_cast := fun t f => { t with npu_format := f },
    contiguous := fun t => { t with is_contiguous := true, data_ptr := t.data_ptr + 4096 } }

/-- A contiguous 2 x 3 float tensor in device memory. -/
def sampleTensor : AtTensor :=
  { defined := true, is_npu := true, is_contiguous := true, sizes := [2, 3],
    scalar_type := .Float, data_ptr := 8192, npu_format := .ACL_FORMAT_ND }

/-- A transposed view of `sampleTensor`: same storage, not contiguous. -/
def sampleView : AtTensor := { sampleTensor with is_contiguous := false, sizes := [3, 2] }

/-- A defined tensor in host memory. -/
def hostTensor : AtTensor := { sampleTensor with is_npu := false }

/-- An undefined tensor. -/
def undefinedTensor : AtTensor :=
  { defined := false, is_npu := false, is_contiguous := true, sizes := [],
    scalar_type := .Undefined, data_ptr := 0, npu_format := .ACL_FORMAT_UNDEFINED }

/-- A contiguous float tensor of rank 9 in device memory. -/
def rankNineTensor : AtTensor := { sampleTensor with sizes := [2, 3, 4, 5, 6, 7, 8, 9, 10] }

/-- A chain of four `Input` calls: an absent optional, a contiguous tensor, an
undefined tensor and a non-contiguous optional. -/
def sampleArgs : List InputArg :=
  [.optional none, .tensor sampleTensor, .tensor undefinedTensor, .optional (some sampleView)]

/-- Replies of a `GetContext` call in which creation succeeds and the current
stream is `nullptr`. -/
def streamlessReply : ContextReply :=
  { createStatus := 0, createdAddress := 4096, devId := 0, stream := none }

/-- Replies of a `GetContext` call in which creation succeeds and a stream exists. -/
def streamReply : ContextReply :=
  { createStatus := 0, createdAddress := 4096, devId := 0, stream := some 7 }

/-- Replies of a dispatch whose `Setup` reports status 0 and 4096 bytes. -/
def sampleReply : DispatchReply :=
  { context := streamReply, setup := { status := 0, workspaceSize := 4096 }, storage := 65536 }

/-- Replies of a dispatch whose `Setup` reports a non-zero status. -/
def failedSetupReply : DispatchReply :=
  { context := streamReply, setup := { status := 1, workspaceSize := 4096 }, storage := 65536 }

/-- Replies of a dispatch whose `Setup` reports status 0 and `2 ^ 63` bytes. -/
def hugeReply : DispatchReply :=
  { context := streamReply, setup := { status := 0, workspaceSize := 2 ^ 63 }, storage := 65536 }

/-- The world after a successful first `GetContext` call answered by `streamReply`. -/
def sampleWorld : World :=
  { msContext := some ⟨4096, some 7⟩, queue := [],
    log := [.CreateContext, .aclrtGetDevice, .getCurrentNPUStream 0, .SetExecuteStream 7] }

/-! ## The dimension copy -/

theorem copyDims_length (M : Nat) (vs : List Int) :
    ∀ (i : Nat) (s : DimStore), (copyDims M i vs s).dims.length = s.dims.length := by
  induction vs with
  | nil => intro i s; rfl
  | cons v rest ih =>
    intro i s
    rw [copyDims, ih]
    unfold storeDim
    split <;> simp

theorem copyDims_outOfBounds (M : Nat) (vs : List Int) :
    ∀ (i : Nat) (s : DimStore), i + vs.length ≤ M →
      (copyDims M i vs s).outOfBounds = s.outOfBounds := by
  induction vs with
  | nil => intro i s _; rfl
  | cons v rest ih =>
    intro i s h
    simp only [List.length_cons] at h
    rw [copyDims, ih (i + 1) _ (by omega)]
    unfold storeDim
    rw [if_pos (by omega)]

/-- Number of stores that fall beyond the array: one for every index from
`max i M` up to the last index copied. -/
theorem copyDims_outOfBounds_length (M : Nat) (vs : List Int) :
    ∀ (i : Nat) (s : DimStore),
      (copyDims M i vs s).outOfBounds.length =
        s.outOfBounds.length + ((i + vs.length - M) - (i - M)) := by
  induction vs with
  | nil => intro i s; simp [copyDims]
  | cons v rest ih =>
    intro i s
    rw [copyDims, ih (i + 1)]
    unfold storeDim
    simp only [List.length_cons]
    split
    · simp only
      omega
    · simp only [List.length_append, List.length_singleton]
      omega

theorem copyDims_below (M : Nat) (vs : List Int) :
    ∀ (i : Nat) (s : DimStore) (j : Nat), j < i →
      (copyDims M i vs s).dims[j]? = s.dims[j]? := by
  induction vs with
  | nil => intro i s j _; rfl
  | cons v rest ih =>
    intro i s j h
    rw [copyDims, ih (i + 1) _ j (by omega)]
    unfold storeDim
    split
    · simp [List.getElem?_set]
      intro h1; omega
    · rfl

theorem copyDims_get (M : Nat) (vs : List Int) :
    ∀ (i : Nat) (s : DimStore), i + vs.length ≤ M → M ≤ s.dims.length →
      ∀ (j : Nat) (h : j < vs.length),
        (copyDims M i vs s).dims[i + j]? = some (some (vs.get ⟨j, h⟩)) := by
  induction vs with
  | nil => intro i s _ _ j h; simp at h
  | cons v rest ih =>
    intro i s hb hl j h
    simp only [List.length_cons] at hb h
    rw [copyDims]
    cases j with
    | zero =>
      have hb0 := copyDims_below M rest (i + 1) (storeDim M s i v) i (by omega)
      simp only [Nat.add_zero]
      rw [hb0]
      unfold storeDim
      rw [if_pos (by omega)]
      simp [List.getElem?_set]
      omega
    | succ k =>
      have hk : k < rest.length := by omega
      have := ih (i + 1) (storeDim M s i v) (by omega)
        (by unfold storeDim; split <;> simp <;> omega) k hk
      rw [show i + (k + 1) = i + 1 + k by omega, this]
      rfl

/-! ## `AtTensor2Tensor` -/

theorem lookup_supported (st : ScalarType)
    (hs : st ∈ [ScalarType.Bool, .Byte, .Char, .Half, .Float, .Int, .Long, .BFloat16]) :
    ∃ dt, dtypeMap.lookup st = some dt := by
  simp only [List.mem_cons, List.mem_singleton, List.not_mem_nil, or_false] at hs
  rcases hs with h | h | h | h | h | h | h | h <;> subst h <;> exact ⟨_, rfl⟩

theorem lookup_none_iff (st : ScalarType) :
    dtypeMap.lookup st = none ↔ st ∉ dtypeMap.map Prod.fst := by
  cases st <;> decide

/-- Conversion of a contiguous tensor whose element type has the table entry
`dt` and whose rank fits the dimension array. -/
theorem AtTensor2Tensor_convert (d : Deps) (t : AtTensor) (dt : aclDataType)
    (hc : t.is_contiguous = true) (hdt : dtypeMap.lookup t.scalar_type = some dt)
    (hr : t.sizes.length ≤ d.MAX_DIM) :
    ∃ tensor, (AtTensor2Tensor d t).result = .ok tensor ∧
      (AtTensor2Tensor d t).outOfBounds = [] ∧
      tensor.desc.shape.dimNum = t.sizes.length ∧
      (∀ (i : Nat) (h : i < t.sizes.length),
        tensor.desc.shape.dims[i]? = some (some (t.sizes.get ⟨i, h⟩))) ∧
      tensor.desc.dtype = dt ∧
      tensor.desc.format = aclFormat.ACL_FORMAT_ND ∧
      tensor.deviceData = t.data_ptr := by
  have hoob := copyDims_outOfBounds d.MAX_DIM t.sizes 0
    { dims := (Tensor.empty d.MAX_DIM).desc.shape.dims, outOfBounds := [] } (by omega)
  have hget := copyDims_get d.MAX_DIM t.sizes 0
    { dims := (Tensor.empty d.MAX_DIM).desc.shape.dims, outOfBounds := [] } (by omega)
    (by simp [Tensor.empty])
  simp only [Nat.zero_add] at hget
  simp only [AtTensor2Tensor, hc, hdt]
  refine ⟨_, rfl, ?_, rfl, ?_, rfl, rfl, rfl⟩
  · simpa using hoob
  · intro i h
    simpa using hget i h

/-- A contiguous tensor makes one store beyond the dimension array for every
dimension in excess of its capacity, whatever the element type. -/
theorem AtTensor2Tensor_outOfBounds_length (d : Deps) (t : AtTensor)
    (hc : t.is_contiguous = true) :
    (AtTensor2Tensor d t).outOfBounds.length = t.sizes.length - d.MAX_DIM := by
  have hlen := copyDims_outOfBounds_length d.MAX_DIM t.sizes 0
    { dims := (Tensor.empty d.MAX_DIM).desc.shape.dims, outOfBounds := [] }
  simp only [List.length_nil, Nat.zero_add, Nat.zero_sub, Nat.sub_zero] at hlen
  cases hl : dtypeMap.lookup t.scalar_type with
  | none => simp only [AtTensor2Tensor, hc, hl]; simpa using hlen
  | some dt => simp only [AtTensor2Tensor, hc, hl]; simpa using hlen

/-- C1. For every contiguous tensor whose element type is one of the eight
supported types (bool, uint8, int8, float16, float32, int32, int64, bfloat16)
and whose rank is at most the capacity of the descriptor's dimension array,
`AtTensor2Tensor` succeeds, stores nothing beyond the array, and returns a
descriptor whose dimension count is the rank, whose i-th dimension is the i-th
size for every i below the rank, whose element type is the table entry of the
tensor's element type, whose format is ND and whose device address is the
tensor's data pointer. -/
theorem AtTensor2Tensor_supported (d : Deps) (t : AtTensor)
    (hc : t.is_contiguous = true)
    (hs : t.scalar_type ∈
      [ScalarType.Bool, .Byte, .Char, .Half, .Float, .Int, .Long, .BFloat16])
    (hr : t.sizes.length ≤ d.MAX_DIM) :
    ∃ tensor, (AtTensor2Tensor d t).result = .ok tensor ∧
      (AtTensor2Tensor d t).outOfBounds = [] ∧
      tensor.desc.shape.dimNum = t.sizes.length ∧
      (∀ (i : Nat) (h : i < t.sizes.length),
        tensor.desc.shape.dims[i]? = some (some (t.sizes.get ⟨i, h⟩))) ∧
      dtypeMap.lookup t.scalar_type = some tensor.desc.dtype ∧
      tensor.desc.format = aclFormat.ACL_FORMAT_ND ∧
      tensor.deviceData = t.data_ptr := by
  obtain ⟨dt, hdt⟩ := lookup_supported t.scalar_type hs
  obtain ⟨tensor, h1, h2, h3, h4, h5, h6, h7⟩ := AtTensor2Tensor_convert d t dt hc hdt hr
  exact ⟨tensor, h1, h2, h3, h4, by rw [hdt, h5], h6, h7⟩

/-- Witness of C1 on a contiguous 2 x 3 float tensor. -/
theorem AtTensor2Tensor_supported_witness :
    ∃ tensor, (AtTensor2Tensor sampleDeps sampleTensor).result = .ok tensor ∧
      (AtTensor2Tensor sampleDeps sampleTensor).outOfBounds = [] ∧
      tensor.desc.shape.dimNum = sampleTensor.sizes.length ∧
      (∀ (i : Nat) (h : i < sampleTensor.sizes.length),
        tensor.desc.shape.dims[i]? = some (some (sampleTensor.sizes.get ⟨i, h⟩))) ∧
      dtypeMap.lookup sampleTensor.scalar_type = some tensor.desc.dtype ∧
      tensor.desc.format = aclFormat.ACL_FORMAT_ND ∧
      tensor.deviceData = sampleTensor.data_ptr :=
  AtTensor2Tensor_supported sampleDeps sampleTensor rfl (by decide) (by decide)

/-- C4. For every tensor whose rank is within the capacity of the dimension
array, `AtTensor2Tensor` fails if and only if the tensor is not contiguous or
its element type is none of the eight keys of `dtypeMap`; a non-contiguous
tensor fails with `NotContiguous` whatever its element type, a contiguous
tensor of an unlisted type fails with `UnsupportedDtype`, and in no case is a
dimension stored beyond the array. -/
theorem AtTensor2Tensor_fails_iff (d : Deps) (t : AtTensor)
    (hr : t.sizes.length ≤ d.MAX_DIM) :
    dtypeMap.length = 8 ∧
    ((∃ e, (AtTensor2Tensor d t).result = .error e) ↔
      (t.is_contiguous = false ∨ t.scalar_type ∉ dtypeMap.map Prod.fst)) ∧
    (t.is_contiguous = false → (AtTensor2Tensor d t).result = .error .NotContiguous) ∧
    (t.is_contiguous = true → t.scalar_type ∉ dtypeMap.map Prod.fst →
      (AtTensor2Tensor d t).result = .error .UnsupportedDtype) ∧
    (AtTensor2Tensor d t).outOfBounds = [] := by
  have hoob := copyDims_outOfBounds d.MAX_DIM t.sizes 0
    { dims := (Tensor.empty d.MAX_DIM).desc.shape.dims, outOfBounds := [] } (by omega)
  have hnone := lookup_none_iff t.scalar_type
  refine ⟨rfl, ?_, ?_, ?_, ?_⟩
  · cases hc : t.is_contiguous with
    | false => simp [AtTensor2Tensor, hc]
    | true =>
      cases hl : dtypeMap.lookup t.scalar_type with
      | none =>
        have hn := hnone.mp hl
        simp only [AtTensor2Tensor, hc, hl]
        constructor
        · intro _; exact Or.inr hn
        · intro _; exact ⟨_, rfl⟩
      | some dt =>
        have hn : ¬ (t.scalar_type ∉ dtypeMap.map Prod.fst) := by
          intro h; rw [hnone.mpr h] at hl; cases hl
        simp only [AtTensor2Tensor, hc, hl]
        constructor
        · rintro ⟨e, he⟩; cases he
        · rintro (h | h)
          · cases h
          · exact absurd h hn
  · intro hc
    simp [AtTensor2Tensor, hc]
  · intro hc hn
    have hl := hnone.mpr hn
    simp only [AtTensor2Tensor, hc, hl]
    rfl
  · cases hc : t.is_contiguous with
    | false => simp [AtTensor2Tensor, hc]
    | true =>
      cases hl : dtypeMap.lookup t.scalar_type with
      | none => simp only [AtTensor2Tensor, hc, hl]; simpa using hoob
      | some dt => simp only [AtTensor2Tensor, hc, hl]; simpa using hoob

/-- Witness of C4: a non-contiguous float view fails, a non-contiguous double
view fails with `NotContiguous`, a contiguous double tensor fails with
`UnsupportedDtype`. -/
theorem AtTensor2Tensor_fails_iff_witness :
    (∃ e, (AtTensor2Tensor sampleDeps sampleView).result = .error e) ∧
    (AtTensor2Tensor sampleDeps { sampleView with scalar_type := .Double }).result =
      .error .NotContiguous ∧
    (AtTensor2Tensor sampleDeps { sampleTensor with scalar_type := .Double }).result =
      .error .UnsupportedDtype :=
  ⟨(AtTensor2Tensor_fails_iff sampleDeps sampleView (by decide)).2.1.mpr (Or.inl rfl),
   (AtTensor2Tensor_fails_iff sampleDeps { sampleView with scalar_type := .Double }
      (by decide)).2.2.1 rfl,
   (AtTensor2Tensor_fails_iff sampleDeps { sampleTensor with scalar_type := .Double }
      (by decide)).2.2.2.1 rfl (by decide)⟩

/-- C5. Evaluation at a tensor whose rank exceeds the capacity: with a
dimension array of 8 cells, the contiguous float tensor of rank 9 and sizes
2, 3, ..., 10 is converted without any failure, the returned descriptor
reports 9 dimensions, and the ninth size, 10, is stored at index 8, one cell
beyond the end of the array. -/
theorem AtTensor2Tensor_rank_nine :
    sampleDeps.MAX_DIM = 8 ∧ rankNineTensor.sizes.length = 9 ∧
    rankNineTensor.is_contiguous = true ∧
    (∃ tensor, (AtTensor2Tensor sampleDeps rankNineTensor).result = .ok tensor ∧
      tensor.desc.shape.dimNum = 9 ∧ tensor.desc.shape.dims.length = 8) ∧
    (AtTensor2Tensor sampleDeps rankNineTensor).outOfBounds = [(8, 10)] :=
  ⟨rfl, rfl, rfl, ⟨_, rfl, rfl, rfl⟩, rfl⟩

/-! ## `ParamSetter::Input` -/

theorem sampleDeps_lawful : sampleDeps.Lawful :=
  ⟨fun _ => rfl, fun _ => rfl, fun _ => rfl, fun _ _ => rfl, fun _ _ => rfl⟩

theorem Input_undefined (d : Deps) (t : AtTensor) (self : ParamSetter)
    (h : t.defined = false) :
    (ParamSetter.Input d t self).result = .ok () ∧
    (ParamSetter.Input d t self).self.variantPack =
      { inTensors := self.variantPack.inTensors ++ [Tensor.empty d.MAX_DIM],
        outTensors := self.variantPack.outTensors } := by
  simp [ParamSetter.Input, h]

theorem Input_ok_appends (d : Deps) (t : AtTensor) (self : ParamSetter) :
    (ParamSetter.Input d t self).result = .ok () →
    ∃ x, (ParamSetter.Input d t self).self.variantPack =
      { inTensors := self.variantPack.inTensors ++ [x],
        outTensors := self.variantPack.outTensors } := by
  unfold ParamSetter.Input
  split
  · intro _; exact ⟨_, rfl⟩
  · split
    · intro h; cases h
    · dsimp only
      split
      · intro h; cases h
      · intro _; exact ⟨_, rfl⟩

theorem InputCall_ok_appends (d : Deps) (a : InputArg) (self : ParamSetter) :
    (ParamSetter.InputCall d a self).result = .ok () →
    ∃ x, (ParamSetter.InputCall d a self).self.variantPack =
      { inTensors := self.variantPack.inTensors ++ [x],
        outTensors := self.variantPack.outTensors } := by
  cases a with
  | tensor t => exact Input_ok_appends d t self
  | optional o =>
    cases o with
    | none => intro _; exact ⟨_, rfl⟩
    | some t => exact Input_ok_appends d t self

theorem InputChain_appends (d : Deps) (args : List InputArg) :
    ∀ (self self' : ParamSetter), ParamSetter.InputChain d args self = .ok self' →
      ∃ added, added.length = args.length ∧
        self'.variantPack = { inTensors := self.variantPack.inTensors ++ added,
                              outTensors := self.variantPack.outTensors } := by
  induction args with
  | nil =>
    intro self self' h
    simp only [ParamSetter.InputChain, Except.ok.injEq] at h
    subst h
    exact ⟨[], rfl, by simp⟩
  | cons a rest ih =>
    intro self self' h
    rw [ParamSetter.InputChain] at h
    have hstep := InputCall_ok_appends d a self
    cases hr : (ParamSetter.InputCall d a self).result with
    | error e => rw [hr] at h; cases h
    | ok u =>
      rw [hr] at h
      obtain ⟨x, hx⟩ := hstep hr
      obtain ⟨added, hlen, hvp⟩ := ih _ _ h
      refine ⟨x :: added, by simp [hlen], ?_⟩
      rw [hvp, hx]
      simp

/-- C6. For every builder and every chain of `Input` calls that all return, the
inputs of the variant pack are the earlier inputs, in order, followed by one
descriptor per call, so their number grows by the number of calls and, from a
new builder, equals it; the outputs are unchanged.  In particular a call on an
undefined tensor (through either overload) or on an absent optional returns
and appends exactly one empty descriptor at the end of the inputs, leaving the
earlier inputs and the outputs as they were. -/
theorem InputChain_count (d : Deps) (args : List InputArg) (self self' : ParamSetter)
    (h : ParamSetter.InputChain d args self = .ok self') :
    (∃ added, added.length = args.length ∧
      self'.variantPack.inTensors = self.variantPack.inTensors ++ added) ∧
    self'.variantPack.inTensors.length = self.variantPack.inTensors.length + args.length ∧
    self'.variantPack.outTensors = self.variantPack.outTensors ∧
    (self = ParamSetter.new → self'.variantPack.inTensors.length = args.length) ∧
    (∀ (ps : ParamSetter) (t : AtTensor), t.defined = false →
      (ParamSetter.Input d t ps).result = .ok () ∧
      (ParamSetter.Input d t ps).self.variantPack =
        { inTensors := ps.variantPack.inTensors ++ [Tensor.empty d.MAX_DIM],
          outTensors := ps.variantPack.outTensors } ∧
      (ParamSetter.InputOptional d (some t) ps).result = .ok () ∧
      (ParamSetter.InputOptional d (some t) ps).self.variantPack =
        { inTensors := ps.variantPack.inTensors ++ [Tensor.empty d.MAX_DIM],
          outTensors := ps.variantPack.outTensors }) ∧
    (∀ (ps : ParamSetter),
      (ParamSetter.InputOptional d none ps).result = .ok () ∧
      (ParamSetter.InputOptional d none ps).self.variantPack =
        { inTensors := ps.variantPack.inTensors ++ [Tensor.empty d.MAX_DIM],
          outTensors := ps.variantPack.outTensors }) := by
  obtain ⟨added, hlen, hvp⟩ := InputChain_appends d args self self' h
  refine ⟨⟨added, hlen, by rw [hvp]⟩, by rw [hvp]; simp [hlen], by rw [hvp], ?_, ?_, ?_⟩
  · intro hnew
    rw [hvp, hnew]
    simp [ParamSetter.new, hlen]
  · intro ps t ht
    exact ⟨(Input_undefined d t ps ht).1, (Input_undefined d t ps ht).2,
      (Input_undefined d t ps ht).1, (Input_undefined d t ps ht).2⟩
  · intro ps
    exact ⟨rfl, rfl⟩

/-- Witness of C6: the chain `sampleArgs` of four calls on a new builder
returns and leaves four inputs and no output. -/
theorem InputChain_count_witness :
    ∃ self', ParamSetter.InputChain sampleDeps sampleArgs ParamSetter.new = .ok self' ∧
      self'.variantPack.inTensors.length = 4 ∧ self'.variantPack.outTensors = [] :=
  ⟨_, rfl,
    (InputChain_count sampleDeps sampleArgs ParamSetter.new _ rfl).2.1,
    (InputChain_count sampleDeps sampleArgs ParamSetter.new _ rfl).2.2.1⟩

/-- C7. For every defined tensor in device memory whose element type is one of
the eight supported types and whose rank is within the capacity, contiguous or
not, and for a framework whose contiguous copy is contiguous and whose copy
and format cast keep element type and sizes, `Input` returns: the conversion
of the tensor after the ND format cast, replaced by its contiguous copy
exactly when the cast result is not contiguous, succeeds, and its descriptor
is the one appended at the end of the inputs.  The contiguous copy is made
exactly when the cast result is not contiguous, nothing is stored beyond the
dimension array, and the descriptor carries the rank and the table entry of
the tensor's element type. -/
theorem Input_device_tensor (d : Deps) (hd : d.Lawful) (t : AtTensor) (self : ParamSetter)
    (hdef : t.defined = true) (hnpu : t.is_npu = true)
    (hs : t.scalar_type ∈
      [ScalarType.Bool, .Byte, .Char, .Half, .Float, .Int, .Long, .BFloat16])
    (hr : t.sizes.length ≤ d.MAX_DIM) :
    ∃ tensor, (AtTensor2Tensor d (castThenContiguous d t)).result = .ok tensor ∧
      (ParamSetter.Input d t self).result = .ok () ∧
      (ParamSetter.Input d t self).self.variantPack =
        { inTensors := self.variantPack.inTensors ++ [tensor],
          outTensors := self.variantPack.outTensors } ∧
      (ParamSetter.Input d t self).outOfBounds = [] ∧
      (ParamSetter.Input d t self).calls =
        [Call.npu_format_cast t .ACL_FORMAT_ND] ++
        (if (d.npu_format_cast t .ACL_FORMAT_ND).is_contiguous = false then
          [Call.contiguous (d.npu_format_cast t .ACL_FORMAT_ND)] else []) ++
        [Call.AtTensor2Tensor (castThenContiguous d t)] ∧
      tensor.desc.shape.dimNum = t.sizes.length ∧
      dtypeMap.lookup t.scalar_type = some tensor.desc.dtype := by
  have hcontig : (castThenContiguous d t).is_contiguous = true := by
    unfold castThenContiguous
    split
    · exact hd.contiguous_is_contiguous _
    · next h => simpa using h
  have hty : (castThenContiguous d t).scalar_type = t.scalar_type := by
    unfold castThenContiguous
    split
    · rw [hd.contiguous_scalar_type, hd.cast_scalar_type]
    · rw [hd.cast_scalar_type]
  have hsz : (castThenContiguous d t).sizes = t.sizes := by
    unfold castThenContiguous
    split
    · rw [hd.contiguous_sizes, hd.cast_sizes]
    · rw [hd.cast_sizes]
  obtain ⟨dt, hdt⟩ := lookup_supported t.scalar_type hs
  obtain ⟨tensor, hok, hoob, hnum, _, hdty, _, _⟩ :=
    AtTensor2Tensor_convert d (castThenContiguous d t) dt hcontig (by rw [hty]; exact hdt)
      (by rw [hsz]; exact hr)
  refine ⟨tensor, hok, ?_, ?_, ?_, ?_, by rw [hnum, hsz], by rw [hdt, hdty]⟩
  · unfold castThenContiguous at hok hoob
    simp only [ParamSetter.Input, FormatTrans, hdef, hnpu]
    simp [hok, hoob]
  · unfold castThenContiguous at hok hoob
    simp only [ParamSetter.Input, FormatTrans, hdef, hnpu]
    simp [hok, hoob]
  · unfold castThenContiguous at hok hoob
    simp only [ParamSetter.Input, FormatTrans, hdef, hnpu]
    simp [hok, hoob]
  · unfold castThenContiguous at hok hoob ⊢
    simp only [ParamSetter.Input, FormatTrans, hdef, hnpu]
    cases hcc : (d.npu_format_cast t aclFormat.ACL_FORMAT_ND).is_contiguous <;>
      simp [hcc] at hok ⊢ <;> simp [hok]

/-- Witness of C7: the non-contiguous view `sampleView`, which the conversion
alone rejects with `NotContiguous`, is accepted by `Input`. -/
theorem Input_device_tensor_witness :
    ∃ tensor, (AtTensor2Tensor sampleDeps (castThenContiguous sampleDeps sampleView)).result =
        .ok tensor ∧
      (ParamSetter.Input sampleDeps sampleView ParamSetter.new).result = .ok () ∧
      (ParamSetter.Input sampleDeps sampleView ParamSetter.new).self.variantPack =
        { inTensors := [tensor], outTensors := [] } ∧
      (AtTensor2Tensor sampleDeps sampleView).result = .error .NotContiguous := by
  obtain ⟨tensor, h1, h2, h3, _⟩ :=
    Input_device_tensor sampleDeps sampleDeps_lawful sampleView ParamSetter.new rfl rfl
      (by decide) (by decide)
  exact ⟨tensor, h1, h2, h3, rfl⟩

/-- C8. For every defined tensor that is not in device memory, `Input`, through
the tensor overload and through the optional overload, fails with
`DeviceResidencyError`; no format cast, no contiguous copy and no conversion
has been made by then, nothing is stored beyond a dimension array, and the
builder, hence the inputs and outputs of its variant pack, is as before the
call. -/
theorem Input_host_tensor (d : Deps) (t : AtTensor) (self : ParamSetter)
    (hdef : t.defined = true) (hnpu : t.is_npu = false) :
    (ParamSetter.Input d t self).result = .error .DeviceResidencyError ∧
    (ParamSetter.Input d t self).self = self ∧
    (ParamSetter.Input d t self).calls = [] ∧
    (ParamSetter.Input d t self).outOfBounds = [] ∧
    (ParamSetter.InputOptional d (some t) self).result = .error .DeviceResidencyError ∧
    (ParamSetter.InputOptional d (some t) self).self = self ∧
    (ParamSetter.InputOptional d (some t) self).calls = [] ∧
    (ParamSetter.InputOptional d (some t) self).outOfBounds = [] := by
  have hft : FormatTrans d t = (.error .DeviceResidencyError, []) := by
    simp [FormatTrans, hdef, hnpu]
  have hin : ParamSetter.Input d t self =
      { result := .error .DeviceResidencyError, self := self, outOfBounds := [],
        calls := [] } := by
    simp [ParamSetter.Input, hdef, hft]
  have hopt : ParamSetter.InputOptional d (some t) self = ParamSetter.Input d t self := rfl
  rw [hopt, hin]
  exact ⟨rfl, rfl, rfl, rfl, rfl, rfl, rfl, rfl⟩

/-- Witness of C8 on the host tensor `hostTensor` and a new builder. -/
theorem Input_host_tensor_witness :
    (ParamSetter.Input sampleDeps hostTensor ParamSetter.new).result =
      .error .DeviceResidencyError ∧
    (ParamSetter.Input sampleDeps hostTensor ParamSetter.new).self = ParamSetter.new ∧
    (ParamSetter.Input sampleDeps hostTensor ParamSetter.new).calls = [] :=
  ⟨(Input_host_tensor sampleDeps hostTensor ParamSetter.new rfl rfl).1,
   (Input_host_tensor sampleDeps hostTensor ParamSetter.new rfl rfl).2.1,
   (Input_host_tensor sampleDeps hostTensor ParamSetter.new rfl rfl).2.2.1⟩

/-! ## `GetContext` and `RunAtbCmd` -/

/-- One call of `GetContext` leaves the command queue alone and logs only calls
that concern the context. -/
theorem GetContext_log (r : ContextReply) (w : World) :
    (GetContext r w).2.queue = w.queue ∧
    ∃ evs, (GetContext r w).2.log = w.log ++ evs ∧
      ∀ ev ∈ evs, ev.isAllocation = false ∧ ev.isEnqueue = false ∧
        ev.isExecute = false ∧ ev.isDestroy = false := by
  unfold GetContext
  split
  · exact ⟨rfl, [], by simp, by simp⟩
  · dsimp only
    split
    · exact ⟨rfl, [.CreateContext], rfl, by simp [Event.isAllocation, Event.isEnqueue,
        Event.isExecute, Event.isDestroy]⟩
    · split
      · exact ⟨rfl, [.CreateContext, .aclrtGetDevice, .getCurrentNPUStream r.devId],
          by simp, by simp [Event.isAllocation, Event.isEnqueue, Event.isExecute,
            Event.isDestroy]⟩
      · next stream _ =>
        exact ⟨rfl, [.CreateContext, .aclrtGetDevice, .getCurrentNPUStream r.devId,
          .SetExecuteStream stream], by simp, by simp [Event.isAllocation, Event.isEnqueue,
            Event.isExecute, Event.isDestroy]⟩

theorem toInt64_small (n : Nat) (h : n < 2 ^ 63) : toInt64 n = (n : Int) := by
  have h1 : n % 2 ^ 64 = n := Nat.mod_eq_of_lt (by omega)
  unfold toInt64
  rw [h1, if_pos h]

theorem OperationSetup_ok (variantPack : VariantPack) (operation contextPtr : Nat)
    (r : SetupReply) (w : World) (hst : r.status = 0) (hn : r.workspaceSize < 2 ^ 64) :
    OperationSetup variantPack operation contextPtr r w =
      (.ok r.workspaceSize,
        { w with log := w.log ++ [.Setup operation variantPack contextPtr] }) := by
  unfold OperationSetup
  rw [Nat.mod_eq_of_lt hn]
  simp [hst]

theorem GetWorkspaceTensor_ok (workspaceSize operation storage : Nat) (w : World)
    (hn : workspaceSize < 2 ^ 63) :
    GetWorkspaceTensor workspaceSize operation storage w =
      (.ok ⟨(workspaceSize : Int), storage⟩,
        { w with log := w.log ++ [.at_empty (workspaceSize : Int)] }) := by
  unfold GetWorkspaceTensor at_empty
  rw [toInt64_small workspaceSize hn]
  have hnonneg : ¬ ((workspaceSize : Int) < 0) := by omega
  simp only [if_neg hnonneg]

/-- C2. Whenever `RunAtbCmd` has obtained the context and the operation's
`Setup` reports a non-zero status, with whatever workspace size, `RunAtbCmd`
fails with `SetupFailed`; the only call it makes after obtaining the context
is `Setup`, the command queue is as before, and among all the calls of this
dispatch there is no workspace allocation, no hand-over of a handler to the
queue, no `Execute` and no destruction of an operation. -/
theorem RunAtbCmd_setup_failed (r : DispatchReply) (op : Nat) (paramsetter : ParamSetter)
    (name : String) (w w1 : World) (contextPtr : Context)
    (hctx : GetContext r.context w = (.ok contextPtr, w1))
    (hst : r.setup.status ≠ 0) :
    (RunAtbCmd r op paramsetter name w).1 = .error .SetupFailed ∧
    (RunAtbCmd r op paramsetter name w).2.log =
      w1.log ++ [.Setup op paramsetter.variantPack contextPtr.address] ∧
    (RunAtbCmd r op paramsetter name w).2.queue = w.queue ∧
    ∃ evs, (RunAtbCmd r op paramsetter name w).2.log = w.log ++ evs ∧
      ∀ ev ∈ evs, ev.isAllocation = false ∧ ev.isEnqueue = false ∧
        ev.isExecute = false ∧ ev.isDestroy = false := by
  obtain ⟨hq, evs, hlog, hev⟩ := GetContext_log r.context w
  rw [hctx] at hq hlog
  simp only at hq hlog
  have hrun : RunAtbCmd r op paramsetter name w =
      (.error .SetupFailed,
        { w1 with log := w1.log ++ [.Setup op paramsetter.variantPack contextPtr.address] }) := by
    simp [RunAtbCmd, hctx, OperationSetup, hst]
  rw [hrun]
  refine ⟨rfl, rfl, hq, evs ++ [.Setup op paramsetter.variantPack contextPtr.address], ?_, ?_⟩
  · simp [hlog]
  · intro ev hmem
    rcases List.mem_append.mp hmem with h | h
    · exact hev ev h
    · simp only [List.mem_singleton] at h
      subst h
      exact ⟨rfl, rfl, rfl, rfl⟩

/-- Witness of C2: a first dispatch at process start whose `Setup` reports
status 1 and 4096 bytes. -/
theorem RunAtbCmd_setup_failed_witness :
    (RunAtbCmd failedSetupReply 1 ParamSetter.new "op" World.initial).1 = .error .SetupFailed ∧
    (RunAtbCmd failedSetupReply 1 ParamSetter.new "op" World.initial).2.log =
      sampleWorld.log ++ [.Setup 1 ParamSetter.new.variantPack 4096] ∧
    (RunAtbCmd failedSetupReply 1 ParamSetter.new "op" World.initial).2.queue = [] :=
  ⟨(RunAtbCmd_setup_failed failedSetupReply 1 ParamSetter.new "op" World.initial
      sampleWorld ⟨4096, some 7⟩ rfl (by decide)).1,
   (RunAtbCmd_setup_failed failedSetupReply 1 ParamSetter.new "op" World.initial
      sampleWorld ⟨4096, some 7⟩ rfl (by decide)).2.1,
   (RunAtbCmd_setup_failed failedSetupReply 1 ParamSetter.new "op" World.initial
      sampleWorld ⟨4096, some 7⟩ rfl (by decide)).2.2.1⟩

/-- C3, as amended.  Whenever `RunAtbCmd` has obtained the context and `Setup`
reports status 0 with a workspace size n below 2 ^ 63, `RunAtbCmd` returns
after making, in this order, the `Setup` call, the allocation of a workspace of
exactly n bytes, and the hand-over of one handler to the command queue, which
then holds that handler behind the earlier ones.  No call of this dispatch is
an `Execute` or a destruction.  Whenever the handler runs, it calls `Execute`
with the same variant pack, the address of that workspace and the size n, and
destroys the operation right after `Execute`. -/
theorem RunAtbCmd_dispatch (r : DispatchReply) (op : Nat) (paramsetter : ParamSetter)
    (name : String) (w w1 : World) (contextPtr : Context)
    (hctx : GetContext r.context w = (.ok contextPtr, w1))
    (hst : r.setup.status = 0) (hn : r.setup.workspaceSize < 2 ^ 63) :
    (RunAtbCmd r op paramsetter name w).1 = .ok () ∧
    (RunAtbCmd r op paramsetter name w).2.log =
      w1.log ++ [.Setup op paramsetter.variantPack contextPtr.address,
        .at_empty (r.setup.workspaceSize : Int),
        .Run name ⟨op, contextPtr.address, paramsetter, r.storage, r.setup.workspaceSize⟩] ∧
    (RunAtbCmd r op paramsetter name w).2.queue =
      w.queue ++ [(name, ⟨op, contextPtr.address, paramsetter, r.storage,
        r.setup.workspaceSize⟩)] ∧
    (∃ evs, (RunAtbCmd r op paramsetter name w).2.log = w.log ++ evs ∧
      ∀ ev ∈ evs, ev.isExecute = false ∧ ev.isDestroy = false) ∧
    ∀ (st : Int) (w2 : World),
      (acl_call ⟨op, contextPtr.address, paramsetter, r.storage, r.setup.workspaceSize⟩
        st w2).2.log =
        w2.log ++ [.Execute op paramsetter.variantPack r.storage r.setup.workspaceSize
          contextPtr.address, .DestroyOperation op] := by
  obtain ⟨hq, evs, hlog, hev⟩ := GetContext_log r.context w
  rw [hctx] at hq hlog
  simp only at hq hlog
  have hrun : RunAtbCmd r op paramsetter name w =
      (.ok (),
        { w1 with
          queue := w1.queue ++ [(name, ⟨op, contextPtr.address, paramsetter, r.storage,
            r.setup.workspaceSize⟩)],
          log := w1.log ++ [.Setup op paramsetter.variantPack contextPtr.address,
            .at_empty (r.setup.workspaceSize : Int),
            .Run name ⟨op, contextPtr.address, paramsetter, r.storage,
              r.setup.workspaceSize⟩] }) := by
    simp only [RunAtbCmd, hctx, OperationSetup_ok _ _ _ r.setup _ hst (by omega),
      GetWorkspaceTensor_ok _ _ _ _ hn, List.append_assoc, List.cons_append, List.nil_append]
  rw [hrun]
  refine ⟨rfl, rfl, by simp [hq], ⟨evs ++ _, by simp [hlog]; rfl, ?_⟩, ?_⟩
  · intro ev hmem
    rcases List.mem_append.mp hmem with h | h
    · exact ⟨(hev ev h).2.2.1, (hev ev h).2.2.2⟩
    · simp only [List.mem_cons, List.mem_singleton, List.not_mem_nil, or_false] at h
      rcases h with h | h | h <;> subst h <;> exact ⟨rfl, rfl⟩
  · intro st w2
    simp [acl_call]

/-- Witness of the amended C3 at n = 4096: a first dispatch at process start
whose `Setup` reports status 0 and 4096 bytes. -/
theorem RunAtbCmd_dispatch_witness :
    (RunAtbCmd sampleReply 1 ParamSetter.new "op" World.initial).1 = .ok () ∧
    (RunAtbCmd sampleReply 1 ParamSetter.new "op" World.initial).2.log =
      sampleWorld.log ++ [.Setup 1 ParamSetter.new.variantPack 4096, .at_empty 4096,
        .Run "op" ⟨1, 4096, ParamSetter.new, 65536, 4096⟩] ∧
    (RunAtbCmd sampleReply 1 ParamSetter.new "op" World.initial).2.queue =
      [("op", ⟨1, 4096, ParamSetter.new, 65536, 4096⟩)] :=
  ⟨(RunAtbCmd_dispatch sampleReply 1 ParamSetter.new "op" World.initial sampleWorld
      ⟨4096, some 7⟩ rfl rfl (by decide)).1,
   (RunAtbCmd_dispatch sampleReply 1 ParamSetter.new "op" World.initial sampleWorld
      ⟨4096, some 7⟩ rfl rfl (by decide)).2.1,
   (RunAtbCmd_dispatch sampleReply 1 ParamSetter.new "op" World.initial sampleWorld
      ⟨4096, some 7⟩ rfl rfl (by decide)).2.2.1⟩

/-- C3 as stated fails at n = 2 ^ 63.  `Setup` reports status 0 and 2 ^ 63
bytes; the size reaches the allocation as the 64-bit signed value - 2 ^ 63, so
the request made is not one for 2 ^ 63 bytes, the dispatch fails, and no
handler is handed to the command queue. -/
theorem RunAtbCmd_huge_workspace :
    hugeReply.setup.status = 0 ∧ hugeReply.setup.workspaceSize = 2 ^ 63 ∧
    (RunAtbCmd hugeReply 1 ParamSetter.new "op" World.initial).1 =
      .error .NegativeDimension ∧
    (RunAtbCmd hugeReply 1 ParamSetter.new "op" World.initial).2.log =
      sampleWorld.log ++ [.Setup 1 ParamSetter.new.variantPack 4096,
        .at_empty (-9223372036854775808)] ∧
    Event.at_empty (2 ^ 63) ∉ (RunAtbCmd hugeReply 1 ParamSetter.new "op" World.initial).2.log ∧
    (RunAtbCmd hugeReply 1 ParamSetter.new "op" World.initial).2.queue = [] := by
  refine ⟨rfl, rfl, rfl, rfl, ?_, rfl⟩
  decide

/-- C9. For every handler built by `RunAtbCmd` and every status that `Execute`
returns, zero or not, the handler returns 0, calls `Execute` and then destroys
the operation, exactly once; it changes neither the command queue nor
`msContext`, and nothing it returns or leaves behind depends on the status. -/
theorem acl_call_status_dropped (c : AclCall) (st : Int) (w : World) :
    (acl_call c st w).1 = 0 ∧
    (acl_call c st w).2.log = w.log ++
      [.Execute c.op c.paramsetter.variantPack c.workspacePtr c.workspaceSize c.contextPtr,
       .DestroyOperation c.op] ∧
    ((acl_call c st w).2.log.drop w.log.length).filter Event.isDestroy =
      [.DestroyOperation c.op] ∧
    (acl_call c st w).2.queue = w.queue ∧
    (acl_call c st w).2.msContext = w.msContext ∧
    ∀ st2 : Int, acl_call c st2 w = acl_call c st w := by
  refine ⟨rfl, by simp [acl_call], ?_, rfl, rfl, fun _ => rfl⟩
  simp [acl_call, Event.isDestroy]

/-- C10. Evaluation of two `GetContext` calls from process start.  In the first
call creation succeeds and the current stream is `nullptr`: the call fails
with `StreamBindingFailed`, after `msContext` has been set.  The second call,
made when a stream exists, returns that context with no stream bound, and
makes no call of its own. -/
theorem GetContext_after_failed_binding :
    (GetContext streamlessReply World.initial).1 = .error .StreamBindingFailed ∧
    (GetContext streamlessReply World.initial).2.msContext = some ⟨4096, none⟩ ∧
    (GetContext streamReply (GetContext streamlessReply World.initial).2).1 =
      .ok ⟨4096, none⟩ ∧
    (GetContext streamReply (GetContext streamlessReply World.initial).2).2.log =
      [.CreateContext, .aclrtGetDevice, .getCurrentNPUStream 0] :=
  ⟨rfl, rfl, rfl, rfl⟩

end AtbAdapter
